import Mathlib

/-!
Verification of the INNOVUE dashboard core logic (src/src/Dashboard.tsx).

The development shallowly embeds the data-transformation pipeline of the
dashboard: the cell-value parser `asNumber`, the threshold-based color ramp
`valueToColorByTargets`, the unit formatter `formatByUnit`, the marquee
composition `marqueeCombined` and its render guard, the marquee speed control,
and the per-sync snapshot construction performed by `load`.

Modelling conventions:
* JavaScript numbers are modelled as exact rationals (`ℚ`); `NaN` produced by
  a failed `Number(...)` parse is modelled as `Option.none` (`jsNumber`), and
  the `Number.isFinite` guard on threshold cells is modelled by the `JsNum`
  type whose `nonfin` constructor stands for any non-finite number.
* Strings are handled through their character lists.  The whitespace class
  used by `String.prototype.trim` / the regex `\s` is modelled by its ASCII
  part (space, tab, LF, VT, FF, CR), which is faithful for every input that
  the claims exercise.
* Spreadsheet rows are `List (List String)`; absent cells are obtained through
  out-of-range list access, mirroring `undefined` in the source.
-/

/-- ASCII part of the JavaScript whitespace class (regex `\s`, `trim`). -/
def isWS (c : Char) : Bool :=
  c.toNat = 32 || c.toNat = 9 || c.toNat = 10 || c.toNat = 11 ||
  c.toNat = 12 || c.toNat = 13

/-- Characters that the JavaScript regex `.` does not match
(LF, CR, U+2028, U+2029). -/
def isNL (c : Char) : Bool :=
  c.toNat = 10 || c.toNat = 13 || c.toNat = 8232 || c.toNat = 8233

/-- The JavaScript digit class `\d` (ASCII `0`-`9`). -/
def isDig (c : Char) : Bool :=
  48 ≤ c.toNat && c.toNat ≤ 57

/-- Model of `String.prototype.trim` (restricted to the ASCII whitespace
class). -/
def jsTrim (s : String) : String :=
  ⟨((s.data.dropWhile isWS).reverse.dropWhile isWS).reverse⟩

/-- The test `/^\s*\(.*\)\s*$/.test(s)` from `asNumber` (Dashboard.tsx:31):
after discarding leading and trailing whitespace the string must start with
`(`, end with `)`, and the part in between must contain no character that the
regex `.` refuses (line terminators). -/
def parenWrapped (s : String) : Bool :=
  let l := s.data.dropWhile isWS
  let m := (l.reverse.dropWhile isWS).reverse
  if 2 ≤ m.length ∧ m.head? = some '(' ∧ m.getLast? = some ')' then
    ((m.drop 1).dropLast).all (fun c => !isNL c)
  else false

/-- Model of `s.replace(/[()]/g, "")` (Dashboard.tsx:32). -/
def stripParens (s : String) : String :=
  ⟨s.data.filter (fun c => !(c == '(' || c == ')'))⟩

/-- Model of `s.replace(/\$/g, "").replace(/,/g, "").replace(/[^\d.\-]/g, "")`
(Dashboard.tsx:33): only digits, `.` and `-` survive.  The same character
filter realizes `String(raw).replace(/[^\d.-]/g, "")` of the speed control
(Dashboard.tsx:240). -/
def keepNumChars (s : String) : String :=
  ⟨s.data.filter (fun c => isDig c || c == '.' || c == '-')⟩

/-- Value of a list of decimal digits. -/
def digitsVal (l : List Char) : ℕ :=
  l.foldl (fun a c => 10 * a + (c.toNat - 48)) 0

/-- Unsigned decimal literal as accepted by JavaScript `Number` on strings
drawn from the alphabet `{0-9, ., -}`: `digits`, `digits.digits?` or
`.digits`; anything else (several dots, an interior `-`) is `NaN`. -/
def decLit (l : List Char) : Option ℚ :=
  if l.count '.' = 0 then
    if l ≠ [] ∧ l.all isDig then some (digitsVal l) else none
  else if l.count '.' = 1 then
    let ip := l.takeWhile (fun c => !(c == '.'))
    let fp := (l.dropWhile (fun c => !(c == '.'))).tail
    if (ip.all isDig ∧ fp.all isDig) ∧ (ip ≠ [] ∨ fp ≠ []) then
      some ((digitsVal ip : ℚ) + (digitsVal fp : ℚ) / (10 : ℚ) ^ fp.length)
    else none
  else none

/-- JavaScript `Number(s)` for strings over the alphabet `{0-9, ., -}` (the
residue alphabet of `keepNumChars`): the empty string is `0`, a leading `-`
negates, and the body must be a decimal literal; `NaN` is `none`. -/
def jsNumber (s : String) : Option ℚ :=
  match s.data with
  | [] => some 0
  | '-' :: rest => (decLit rest).map (fun q => -q)
  | l => decLit l

/-- The cell-value parser `asNumber` (Dashboard.tsx:27-38).  `none` models a
`null`/`undefined` cell, the result `none` models the JavaScript `null`. -/
def asNumber (x : Option String) : Option ℚ :=
  match x with
  | none => none
  | some str =>
    let s0 := jsTrim str
    if s0 = "" ∨ s0 = "—" ∨ s0 = "--" then none
    else
      let parenNeg := parenWrapped s0
      let s1 := if parenNeg then stripParens s0 else s0
      let s2 := keepNumChars s1
      if s2 = "" ∨ s2 = "-" ∨ s2 = "." ∨ s2 = "-." then none
      else
        match jsNumber s2 with
        | none => none
        | some n => some (if parenNeg then -n else n)

/-- Sanity checks for the parser embedding, matching the edge cases listed
in the specification. -/
theorem asNumber_edge_cases :
    asNumber (some "$1,234") = some 1234 ∧
    asNumber (some "  ") = none ∧
    asNumber (some "abc") = none ∧
    asNumber (some "—") = none ∧
    asNumber none = none := by
  refine ⟨by decide, by decide, by decide, by decide, by decide⟩

/-- Sanity check: a parenthesized percentage parses to the negated value. -/
theorem asNumber_paren_percent :
    asNumber (some "(2.5%)") = some (-(5/2 : ℚ)) := by
  have h : asNumber (some "(2.5%)") = some (-((2:ℚ) + 5 / 10 ^ 1)) := rfl
  rw [h]
  norm_num

/-- A JavaScript number that is either a finite value (modelled exactly as a
rational) or non-finite (`NaN`, `Infinity`, `-Infinity`); only the
`Number.isFinite` test of `valueToColorByTargets` distinguishes the
non-finite values, so they are collapsed into one constructor. -/
inductive JsNum where
  | fin (q : ℚ)
  | nonfin
deriving DecidableEq

/-- Model of `Number.isFinite(x) ? x : d` (Dashboard.tsx:46-47). -/
def JsNum.orDefault : JsNum → ℚ → ℚ
  | .fin q, _ => q
  | .nonfin, d => d

/-- The clamped ramp position of `valueToColorByTargets`
(Dashboard.tsx:48-50): `t = (value - R) / (G - R)` with the division-by-zero
guard `t = 0.5` when the denominator is zero, clamped to `[0, 1]`. -/
def rampT (v G R : ℚ) : ℚ :=
  let denom := G - R
  let t := if denom = 0 then 1/2 else (v - R) / denom
  max 0 (min 1 t)

/-- The color token template `hsl(${hue}, 70%, 45%)` (Dashboard.tsx:52). -/
def hslString (hue : ℚ) : String :=
  "hsl(" ++ toString hue ++ ", 70%, 45%)"

/-- The color mapping `valueToColorByTargets` (Dashboard.tsx:40-53). -/
def valueToColorByTargets (value : Option ℚ) (greenAt redAt : JsNum) : String :=
  match value with
  | none => "#5b5b5b"
  | some v =>
    let G := greenAt.orDefault 100
    let R := redAt.orDefault 0
    hslString (rampT v G R * 120)

/-- Model of `Math.round`: round half toward positive infinity. -/
def jsRound (q : ℚ) : ℤ := ⌊q + 1/2⌋

/-- Three-digit grouping of a reversed digit string (least significant digit
first), as performed by `Intl.NumberFormat("en-US")`. -/
def group3 : List Char → List Char
  | a :: b :: c :: d :: rest => a :: b :: c :: ',' :: group3 (d :: rest)
  | l => l

/-- Insert `en-US` thousands separators into a digit string. -/
def groupDigits (l : List Char) : List Char :=
  (group3 l.reverse).reverse

/-- Model of `Intl.NumberFormat("en-US", { style: "currency", currency: "USD",
minimumFractionDigits: 0, maximumFractionDigits: 0 }).format`
(Dashboard.tsx:60-65): the default rounding mode of `Intl` is `halfExpand`
(round half away from zero), the sign is shown for every negative input
(including inputs that round to zero), and the digits are grouped in threes. -/
def formatUSD (q : ℚ) : String :=
  (if q < 0 then "-" else "") ++ "$" ++
    String.mk (groupDigits (toString (⌊|q| + (1:ℚ)/2⌋).toNat).data)

/-- Model of `String.prototype.toLowerCase` on the ASCII unit tokens that
`formatByUnit` compares against. -/
def jsToLower (s : String) : String :=
  ⟨s.data.map Char.toLower⟩

/-- The unit formatter `formatByUnit` (Dashboard.tsx:56-69).  `none` for the
unit token models a
call without the optional second argument. -/
def formatByUnit (n : Option ℚ) (unitToken : Option String) : String :=
  match n with
  | none => "—"
  | some q =>
    let u := jsToLower (jsTrim (unitToken.getD ""))
    if u = "$" ∨ u = "usd" ∨ u = "dollar" then formatUSD q
    else if u = "%" then toString (jsRound q) ++ "%"
    else toString (jsRound q)

/-- The render guard of the `Marquee` component (Dashboard.tsx:79):
`if (!text?.trim()) return null;` — the component renders a looping bar
exactly when the trimmed text is non-empty. -/
def marqueeRenders (text : String) : Bool :=
  !(jsTrim text == "")

/-- The five marquee selection flags (`pick`, Dashboard.tsx:154-160). -/
structure Picks where
  questions : Bool
  reviews : Bool
  banking : Bool
  social : Bool
  news : Bool
deriving DecidableEq

/-- The five marquee feed strings (`mqTexts`, Dashboard.tsx:163-169). -/
structure MqTexts where
  questions : String
  reviews : String
  banking : String
  social : String
  news : String
deriving DecidableEq

/-- The composition `marqueeCombined` (Dashboard.tsx:265-277): push the
trimmed text of each
selected, non-blank feed in the fixed order questions, reviews, banking,
social, news, and join with the padded bullet separator. -/
def marqueeCombined (pick : Picks) (mq : MqTexts) : String :=
  let parts : List String := []
  let parts := if pick.questions && !(jsTrim mq.questions == "") then
    parts ++ [jsTrim mq.questions] else parts
  let parts := if pick.reviews && !(jsTrim mq.reviews == "") then
    parts ++ [jsTrim mq.reviews] else parts
  let parts := if pick.banking && !(jsTrim mq.banking == "") then
    parts ++ [jsTrim mq.banking] else parts
  let parts := if pick.social && !(jsTrim mq.social == "") then
    parts ++ [jsTrim mq.social] else parts
  let parts := if pick.news && !(jsTrim mq.news == "") then
    parts ++ [jsTrim mq.news] else parts
  String.intercalate "   •   " parts

/-- The feed list in the fixed iteration order with the qualification test of
the specification: a feed contributes its trimmed text exactly when its
selection flag is set and the trimmed text is non-empty. -/
def qualifyingFeeds (pick : Picks) (mq : MqTexts) : List String :=
  (([(pick.questions, mq.questions), (pick.reviews, mq.reviews),
     (pick.banking, mq.banking), (pick.social, mq.social),
     (pick.news, mq.news)]).filter
     (fun p => p.1 && !(jsTrim p.2 == ""))).map (fun p => jsTrim p.2)

/-- KPI source row indices inside the fetched window (Dashboard.tsx:207). -/
def kpiIdx : List ℕ := [0, 1, 2, 3, 4, 5, 8, 9, 10]

/-- The list `CONFIG.fallbackLabels` (Dashboard.tsx:12-22). -/
def fallbackLabels : List String :=
  ["Tile 1", "Tile 2", "Tile 3", "Tile 4", "Tile 5",
   "Tile 6", "Tile 7", "Tile 8", "Tile 9"]

/-- One KPI tile of the snapshot: the values pushed for slot `out` by the KPI
loop of `load` (Dashboard.tsx:214-223). -/
structure Tile where
  label : String
  value : Option ℚ
  greenAt : ℚ
  redAt : ℚ
  unit : String
deriving DecidableEq

/-- The KPI loop body of `load` (Dashboard.tsx:214-223): row
`rows[kpiIdx[out]] || []`, label from column 0 with positional fallback,
value from column 1, thresholds from columns 2 and 3 with defaults 100 and 0,
unit from column 5. -/
def tileOf (rows : List (List String)) (out : ℕ) : Tile :=
  let r := rows.getD (kpiIdx.getD out 0) []
  { label := (fun t => if t = "" then fallbackLabels.getD out "" else t)
      (jsTrim (r.getD 0 ""))
    value := asNumber r[1]?
    greenAt := (asNumber r[2]?).getD 100
    redAt := (asNumber r[3]?).getD 0
    unit := jsTrim (r.getD 5 "") }

/-- The marquee text accessor `safe` of `load` (Dashboard.tsx:226-227):
`rows[ri] && rows[ri][1] ? String(rows[ri][1]) : ""` — a missing row, a
missing cell and an empty cell all collapse to the empty string. -/
def safeCell (rows : List (List String)) (ri : ℕ) : String :=
  (rows.getD ri []).getD 1 ""

/-- The five feed strings, from cells B8, B9, B15, B16, B17 of the window
(row indices 6, 7, 13, 14, 15; Dashboard.tsx:228-234). -/
def mqTextsOf (rows : List (List String)) : MqTexts :=
  { questions := safeCell rows 6
    reviews := safeCell rows 7
    banking := safeCell rows 13
    social := safeCell rows 14
    news := safeCell rows 15 }

/-- The raw speed-control cell `rows[10]?.[6] ?? ""` (Dashboard.tsx:237). -/
def speedRaw (rows : List (List String)) : String :=
  (rows.getD 10 []).getD 6 ""

/-- The clamped control value (Dashboard.tsx:238-241):
`Math.max(1, Math.min(100, Number(String(raw).replace(/[^\d.-]/g, "")) || 70))`.
`Number(...) || 70` replaces both a `NaN` parse and a parse to `0` by the
default `70`. -/
def speedCtl (raw : String) : ℚ :=
  let n := match jsNumber (keepNumChars raw) with
           | none => 70
           | some q => if q = 0 then 70 else q
  max 1 (min 100 n)

/-- The marquee loop duration `40 + (ctl / 100) * 100` (Dashboard.tsx:242). -/
def marqueeSecOf (rows : List (List String)) : ℚ :=
  40 + (speedCtl (speedRaw rows) / 100) * 100

/-- The sync status enum (Dashboard.tsx:8). -/
inductive LoadState where
  | idle
  | loading
  | ok
  | error
deriving DecidableEq

/-- One displayed snapshot: every piece of state that `load` can write
(Dashboard.tsx:134-170).  `lastSync` is wall-clock time and is left out of
the model. -/
structure Snapshot where
  status : LoadState
  statusMsg : String
  labels : List String
  values : List (Option ℚ)
  greens : List ℚ
  reds : List ℚ
  units : List String
  mqTexts : MqTexts
  marqueeSec : ℚ
deriving DecidableEq

/-- The sync function `load` (Dashboard.tsx:189-256) as a state transformer:
the fetch outcome
is passed in as an `Except` value (`.error` models a network failure, a
non-success HTTP status, or a JSON body that throws — all of which are
raised before any state other than `status`/`statusMsg` is written).  On
success every tile and feed field is rebuilt from the fetched rows; on
failure only the status and message change. -/
def load (prev : Snapshot) (fetched : Except String (List (List String))) :
    Snapshot :=
  match fetched with
  | .error msg => { prev with status := .error, statusMsg := msg }
  | .ok rows =>
    { status := .ok
      statusMsg := ""
      labels := (List.range 9).map (fun i => (tileOf rows i).label)
      values := (List.range 9).map (fun i => (tileOf rows i).value)
      greens := (List.range 9).map (fun i => (tileOf rows i).greenAt)
      reds := (List.range 9).map (fun i => (tileOf rows i).redAt)
      units := (List.range 9).map (fun i => (tileOf rows i).unit)
      mqTexts := mqTextsOf rows
      marqueeSec := marqueeSecOf rows }

/-! ### Helper lemmas -/

theorem rampT_nonneg (v G R : ℚ) : 0 ≤ rampT v G R :=
  le_max_left 0 _

theorem rampT_le_one (v G R : ℚ) : rampT v G R ≤ 1 :=
  max_le zero_le_one (min_le_left _ _)

/-- Clamping to the unit interval commutes with reflection `a ↦ 1 - a`. -/
theorem clamp_one_sub (a : ℚ) :
    max 0 (min 1 (1 - a)) = 1 - max 0 (min 1 a) := by
  rcases le_total a 0 with h | h
  · rw [min_eq_left (by linarith : (1:ℚ) ≤ 1 - a),
      max_eq_right zero_le_one,
      min_eq_right (by linarith : a ≤ (1:ℚ)),
      max_eq_left h]
    norm_num
  · rcases le_total a 1 with h1 | h1
    · rw [min_eq_right (by linarith : (1:ℚ) - a ≤ 1),
        max_eq_right (by linarith : (0:ℚ) ≤ 1 - a),
        min_eq_right h1, max_eq_right h]
    · rw [min_eq_right (by linarith : (1:ℚ) - a ≤ 1),
        max_eq_left (by linarith : (1:ℚ) - a ≤ 0),
        min_eq_left h1, max_eq_right zero_le_one]
      norm_num

/-- No `hsl(...)` token equals the gray placeholder token. -/
theorem hsl_ne_gray (q : ℚ) : hslString q ≠ "#5b5b5b" := by
  intro hEq
  have hd := congrArg String.data hEq
  rw [hslString, String.data_append, String.data_append] at hd
  have h1 : ("hsl(").data = ['h', 's', 'l', '('] := rfl
  have h2 : ("#5b5b5b").data = ['#', '5', 'b', '5', 'b', '5', 'b'] := rfl
  rw [h1, h2] at hd
  simp only [List.cons_append, List.cons.injEq] at hd
  exact absurd hd.1 (by decide)

/-! ### Claims about the color ramp -/

/-- Claim C3: `valueToColorByTargets` returns the fixed neutral gray token
for an absent value; for a present value with finite thresholds it computes
`t = (value - redAt) / (greenAt - redAt)`, fixes `t = 0.5` when the
thresholds coincide, clamps `t` to `[0, 1]`, and emits the hue `t * 120`
with fixed saturation and lightness; `t = 0` and `t = 1` hit the pure red
(hue 0) and pure green (hue 120) endpoints exactly. -/
theorem C3_colorFor_ramp (v G R : ℚ) :
    valueToColorByTargets none (.fin G) (.fin R) = "#5b5b5b" ∧
    valueToColorByTargets (some v) (.fin G) (.fin R)
      = hslString (rampT v G R * 120) ∧
    0 ≤ rampT v G R ∧ rampT v G R ≤ 1 ∧
    (G = R → rampT v G R = 1/2) ∧
    (G ≠ R → rampT v G R = max 0 (min 1 ((v - R) / (G - R)))) ∧
    (G ≠ R → rampT R G R * 120 = 0 ∧ rampT G G R * 120 = 120) := by
  refine ⟨rfl, rfl, rampT_nonneg v G R, rampT_le_one v G R, ?_, ?_, ?_⟩
  · intro h
    subst h
    simp only [rampT, sub_self]
    rw [if_pos trivial, min_eq_right (by norm_num : (1:ℚ)/2 ≤ 1),
      max_eq_right (by norm_num : (0:ℚ) ≤ 1/2)]
  · intro h
    have hd : G - R ≠ 0 := sub_ne_zero_of_ne (Ne.symm (Ne.symm h))
    simp [rampT, hd]
  · intro h
    have hd : G - R ≠ 0 := sub_ne_zero_of_ne h
    constructor
    · simp only [rampT, if_neg hd, sub_self, zero_div]
      rw [min_eq_right (by norm_num : (0:ℚ) ≤ 1), max_self, zero_mul]
    · simp only [rampT, if_neg hd, div_self hd, min_self]
      rw [max_eq_right zero_le_one, one_mul]

/-- Witness for C3 at `v = 0`, `G = 10`, `R = 0`. -/
theorem C3_witness :
    (10:ℚ) ≠ 0 ∧ rampT 0 10 0 * 120 = 0 ∧ rampT 10 10 0 * 120 = 120 :=
  ⟨by norm_num,
    ((C3_colorFor_ramp 0 10 0).2.2.2.2.2.2 (by norm_num)).1,
    ((C3_colorFor_ramp 10 10 0).2.2.2.2.2.2 (by norm_num)).2⟩

/-- Claim C6: for a fixed threshold pair the hue is monotonic in the value
when `greenAt > redAt`; in the degenerate case `greenAt = redAt` the hue at
`v = redAt` equals the hue at `v = greenAt`; and swapping the two thresholds
while holding the value fixed reflects the hue (swapped hue = 120 − original
hue), reversing the monotonic direction. -/
theorem C6_hue_monotone_swap (v w G R : ℚ) :
    (R < G → v ≤ w → rampT v G R * 120 ≤ rampT w G R * 120) ∧
    (G = R → rampT R G R * 120 = rampT G G R * 120) ∧
    rampT v R G * 120 = 120 - rampT v G R * 120 := by
  refine ⟨?_, ?_, ?_⟩
  · intro hRG hvw
    have hd : G - R ≠ 0 := ne_of_gt (sub_pos.mpr hRG)
    simp only [rampT, if_neg hd]
    have ht : (v - R) / (G - R) ≤ (w - R) / (G - R) :=
      (div_le_div_iff_of_pos_right (sub_pos.mpr hRG)).mpr (sub_le_sub_right hvw R)
    have hc := max_le_max (le_refl (0:ℚ)) (min_le_min (le_refl (1:ℚ)) ht)
    exact mul_le_mul_of_nonneg_right hc (by norm_num)
  · intro h
    subst h
    rfl
  · by_cases h : G = R
    · subst h
      have hval : rampT v G G = 1/2 := by
        simp only [rampT, sub_self]
        rw [if_pos trivial, min_eq_right (by norm_num : (1:ℚ)/2 ≤ 1),
          max_eq_right (by norm_num : (0:ℚ) ≤ 1/2)]
      rw [hval]
      norm_num
    · have hd : G - R ≠ 0 := sub_ne_zero_of_ne h
      have hd2 : R - G ≠ 0 := sub_ne_zero_of_ne (Ne.symm h)
      simp only [rampT, if_neg hd, if_neg hd2]
      have hkey : (v - G) / (R - G) = 1 - (v - R) / (G - R) := by
        field_simp
        ring
      rw [hkey, clamp_one_sub]
      ring

/-- Witness for C6 at `v = 1 ≤ w = 2`, `G = 10 > R = 0`. -/
theorem C6_witness :
    (0:ℚ) < 10 ∧ (1:ℚ) ≤ 2 ∧ rampT 1 10 0 * 120 ≤ rampT 2 10 0 * 120 :=
  ⟨by norm_num, by norm_num,
    (C6_hue_monotone_swap 1 2 10 0).1 (by norm_num) (by norm_num)⟩

/-- Claim C10: for every input — with non-finite thresholds silently replaced
by the defaults 100 and 0 before the ramp is computed — the tile color is the
fixed gray token `#5b5b5b` exactly when the value is absent, and otherwise an
`hsl` token with saturation 70% and lightness 45% whose hue lies in
`[0, 120]`. -/
theorem C10_color_token (value : Option ℚ) (G R : JsNum) :
    (valueToColorByTargets value G R = "#5b5b5b" ↔ value = none) ∧
    (∀ v, value = some v → ∃ h : ℚ, 0 ≤ h ∧ h ≤ 120 ∧
      valueToColorByTargets value G R = hslString h) ∧
    valueToColorByTargets value JsNum.nonfin R
      = valueToColorByTargets value (JsNum.fin 100) R ∧
    valueToColorByTargets value G JsNum.nonfin
      = valueToColorByTargets value G (JsNum.fin 0) := by
  cases value with
  | none =>
    refine ⟨by simp [valueToColorByTargets], ?_, rfl, rfl⟩
    intro v h
    cases h
  | some v =>
    have hv : valueToColorByTargets (some v) G R
        = hslString (rampT v (G.orDefault 100) (R.orDefault 0) * 120) := rfl
    refine ⟨?_, ?_, rfl, rfl⟩
    · constructor
      · intro h
        rw [hv] at h
        exact absurd h (hsl_ne_gray _)
      · intro h
        cases h
    · intro w hw
      injection hw with hw'
      subst hw'
      refine ⟨rampT v (G.orDefault 100) (R.orDefault 0) * 120, ?_, ?_, hv⟩
      · exact mul_nonneg (rampT_nonneg _ _ _) (by norm_num)
      · have h1 := rampT_le_one v (G.orDefault 100) (R.orDefault 0)
        have h2 := mul_le_mul_of_nonneg_right h1 (by norm_num : (0:ℚ) ≤ 120)
        linarith

/-- Witness for C10 at value 5 with a non-finite green threshold. -/
theorem C10_witness :
    ∃ h : ℚ, 0 ≤ h ∧ h ≤ 120 ∧
      valueToColorByTargets (some 5) JsNum.nonfin (JsNum.fin 0) = hslString h :=
  (C10_color_token (some 5) JsNum.nonfin (JsNum.fin 0)).2.1 5 rfl

/-! ### Claims about the marquee speed control -/

/-- Counterexample for Claim C2: the control value 1 yields a 41-second loop,
not the 40-second loop stated by the claim (`40 + (1/100)*100 = 41`). -/
theorem C2_counterexample :
    marqueeSecOf (List.replicate 10 [] ++ [["", "", "", "", "", "", "1"]]) = 41
      ∧ (41 : ℚ) ≠ 40 := by
  constructor
  · have h : speedCtl
        (speedRaw (List.replicate 10 [] ++ [["", "", "", "", "", "", "1"]]))
        = 1 := by decide
    rw [marqueeSecOf, h]
    norm_num
  · norm_num

/-- Claim C2 (amended): the speed mapping reads the raw control cell at row
10, column 6, clamps it into 1–100 (default 70 on an absent, zero or
unparsable control), and returns `40 + (clamped/100) * 100`; control value 1
yields a 41-second loop (not 40), control value 100 yields 140 seconds, an
absent or invalid control yields 110 seconds, an out-of-range control such as
150 clamps to 100 and yields 140 seconds, and every loop duration lies in
`[41, 140]`. -/
theorem C2_speed_amended :
    (∀ rows, 41 ≤ marqueeSecOf rows ∧ marqueeSecOf rows ≤ 140) ∧
    marqueeSecOf (List.replicate 10 [] ++ [["", "", "", "", "", "", "1"]])
      = 41 ∧
    marqueeSecOf (List.replicate 10 [] ++ [["", "", "", "", "", "", "100"]])
      = 140 ∧
    marqueeSecOf [] = 110 ∧
    marqueeSecOf (List.replicate 10 [] ++ [["", "", "", "", "", "", "abc"]])
      = 110 ∧
    marqueeSecOf (List.replicate 10 [] ++ [["", "", "", "", "", "", "150"]])
      = 140 := by
  refine ⟨fun rows => ?_, ?_, ?_, ?_, ?_, ?_⟩
  · have he : marqueeSecOf rows = 40 + speedCtl (speedRaw rows) := by
      rw [marqueeSecOf, div_mul_cancel₀ _ (by norm_num : (100:ℚ) ≠ 0)]
    have hc1 : (1:ℚ) ≤ speedCtl (speedRaw rows) := by
      simp only [speedCtl]
      exact le_max_left 1 _
    have hc2 : speedCtl (speedRaw rows) ≤ 100 := by
      simp only [speedCtl]
      exact max_le (by norm_num) (min_le_left _ _)
    exact ⟨by rw [he]; linarith, by rw [he]; linarith⟩
  · have h : speedCtl
        (speedRaw (List.replicate 10 [] ++ [["", "", "", "", "", "", "1"]]))
        = 1 := by decide
    rw [marqueeSecOf, h]
    norm_num
  · have h : speedCtl
        (speedRaw (List.replicate 10 [] ++ [["", "", "", "", "", "", "100"]]))
        = 100 := by decide
    rw [marqueeSecOf, h]
    norm_num
  · have h : speedCtl (speedRaw ([] : List (List String))) = 70 := by decide
    rw [marqueeSecOf, h]
    norm_num
  · have h : speedCtl
        (speedRaw (List.replicate 10 [] ++ [["", "", "", "", "", "", "abc"]]))
        = 70 := by decide
    rw [marqueeSecOf, h]
    norm_num
  · have h : speedCtl
        (speedRaw (List.replicate 10 [] ++ [["", "", "", "", "", "", "150"]]))
        = 100 := by decide
    rw [marqueeSecOf, h]
    norm_num

/-! ### Claims about display formatting -/

/-- Counterexample for Claim C4: the rounding used by `formatByUnit` is
`Math.round` (round half toward positive infinity), which does not behave
consistently for negative and positive values: `2.5` rounds to magnitude 3
while `-2.5` rounds to magnitude 2. -/
theorem C4_counterexample :
    formatByUnit (some ((5:ℚ)/2)) (some "%") = "3%" ∧
    formatByUnit (some (-((5:ℚ)/2))) (some "%") = "-2%" := by
  constructor
  · have hb : formatByUnit (some ((5:ℚ)/2)) (some "%")
        = toString (jsRound ((5:ℚ)/2)) ++ "%" := by
      simp only [formatByUnit, Option.getD_some]
      rw [if_neg (by decide), if_pos (by decide)]
    rw [hb, show jsRound ((5:ℚ)/2) = 3 by rw [jsRound]; norm_num]
    decide
  · have hb : formatByUnit (some (-((5:ℚ)/2))) (some "%")
        = toString (jsRound (-((5:ℚ)/2))) ++ "%" := by
      simp only [formatByUnit, Option.getD_some]
      rw [if_neg (by decide), if_pos (by decide)]
    rw [hb, show jsRound (-((5:ℚ)/2)) = -2 by rw [jsRound]; norm_num]
    decide

/-- Claim C4 (amended): `formatByUnit` maps an absent value to the literal
placeholder dash; for unit `"$"` (or case-insensitively `"usd"`/`"dollar"`
after trimming) it returns an en-US currency string with zero decimal places
rounded half away from zero; for unit `"%"` it returns the `Math.round`-ed
integer followed by `"%"`; for any other unit it returns the plain
`Math.round`-ed integer string.  `Math.round` rounds half toward positive
infinity, so halves are not rounded consistently for negative and positive
values (`2.5 ↦ 3` but `-2.5 ↦ -2`). -/
theorem C4_format_amended (q : ℚ) (u : Option String) :
    formatByUnit none u = "—" ∧
    ((jsToLower (jsTrim (u.getD "")) = "$" ∨ jsToLower (jsTrim (u.getD "")) = "usd"
        ∨ jsToLower (jsTrim (u.getD "")) = "dollar") →
      formatByUnit (some q) u = formatUSD q) ∧
    (jsToLower (jsTrim (u.getD "")) = "%" →
      formatByUnit (some q) u = toString (jsRound q) ++ "%") ∧
    (¬(jsToLower (jsTrim (u.getD "")) = "$" ∨ jsToLower (jsTrim (u.getD "")) = "usd"
        ∨ jsToLower (jsTrim (u.getD "")) = "dollar") →
      jsToLower (jsTrim (u.getD "")) ≠ "%" →
      formatByUnit (some q) u = toString (jsRound q)) ∧
    jsRound ((5:ℚ)/2) = 3 ∧ jsRound (-((5:ℚ)/2)) = -2 ∧
    formatByUnit (some ((554:ℚ)/10)) (some "%") = "55%" ∧
    formatByUnit (some ((12346:ℚ)/10)) (some "$") = "$1,235" := by
  refine ⟨rfl, ?_, ?_, ?_, ?_, ?_, ?_, ?_⟩
  · intro h
    simp only [formatByUnit]
    rw [if_pos h]
  · intro h
    simp only [formatByUnit]
    rw [if_neg (by rw [h]; decide), if_pos h]
  · intro h1 h2
    simp only [formatByUnit]
    rw [if_neg h1, if_neg h2]
  · rw [jsRound]; norm_num
  · rw [jsRound]; norm_num
  · have hb : formatByUnit (some ((554:ℚ)/10)) (some "%")
        = toString (jsRound ((554:ℚ)/10)) ++ "%" := by
      simp only [formatByUnit, Option.getD_some]
      rw [if_neg (by decide), if_pos (by decide)]
    rw [hb, show jsRound ((554:ℚ)/10) = 55 by rw [jsRound]; norm_num]
    decide
  · have hb : formatByUnit (some ((12346:ℚ)/10)) (some "$")
        = formatUSD ((12346:ℚ)/10) := by
      simp only [formatByUnit, Option.getD_some]
      rw [if_pos (by decide)]
    have hfl : (⌊|(12346:ℚ)/10| + (1:ℚ)/2⌋ : ℤ) = 1235 := by
      rw [abs_of_nonneg (by norm_num : (0:ℚ) ≤ 12346/10)]
      norm_num
    rw [hb, formatUSD, if_neg (by norm_num : ¬((12346:ℚ)/10 < 0)), hfl]
    decide

/-- Witness for C4 at `q = 5/2` with unit `"%"`. -/
theorem C4_witness :
    formatByUnit (some ((5:ℚ)/2)) (some "%")
      = toString (jsRound ((5:ℚ)/2)) ++ "%" :=
  (C4_format_amended ((5:ℚ)/2) (some "%")).2.2.1 (by decide)

/-! ### Claims about marquee composition -/

/-- Claim C5: `marqueeCombined` iterates the five feeds in the fixed order
questions, reviews, banking, social, news; a feed's trimmed text is included
exactly when its selection flag is true and the trimmed text is non-empty;
the included parts are joined with the separator `"   •   "`; and when no
feed qualifies the composed text is empty and the marquee component renders
nothing. -/
theorem C5_marquee_compose (pick : Picks) (mq : MqTexts) :
    marqueeCombined pick mq
      = String.intercalate "   •   " (qualifyingFeeds pick mq) ∧
    (qualifyingFeeds pick mq = [] →
      marqueeCombined pick mq = "" ∧
      marqueeRenders (marqueeCombined pick mq) = false) := by
  have hmain : marqueeCombined pick mq
      = String.intercalate "   •   " (qualifyingFeeds pick mq) := by
    simp only [marqueeCombined, qualifyingFeeds]
    cases h1 : (pick.questions && !(jsTrim mq.questions == "")) <;>
    cases h2 : (pick.reviews && !(jsTrim mq.reviews == "")) <;>
    cases h3 : (pick.banking && !(jsTrim mq.banking == "")) <;>
    cases h4 : (pick.social && !(jsTrim mq.social == "")) <;>
    cases h5 : (pick.news && !(jsTrim mq.news == "")) <;>
    simp [h1, h2, h3, h4, h5, List.filter_cons, List.filter_nil]
  refine ⟨hmain, fun h => ⟨?_, ?_⟩⟩
  · rw [hmain, h]
    rfl
  · rw [hmain, h]
    decide

/-- Witness for C5: with every selection flag false no feed qualifies, the
composed text is empty, and the marquee renders nothing. -/
theorem C5_witness :
    qualifyingFeeds ⟨false, false, false, false, false⟩
        ⟨"a", "b", "", " ", "e"⟩ = [] ∧
    marqueeCombined ⟨false, false, false, false, false⟩
        ⟨"a", "b", "", " ", "e"⟩ = "" ∧
    marqueeRenders (marqueeCombined ⟨false, false, false, false, false⟩
        ⟨"a", "b", "", " ", "e"⟩) = false := by
  have h := (C5_marquee_compose ⟨false, false, false, false, false⟩
    ⟨"a", "b", "", " ", "e"⟩).2 (by decide)
  exact ⟨by decide, h.1, h.2⟩

/-! ### Claims about snapshot construction -/

/-- Claim C8: a KPI row index beyond the fetched window is treated as an
empty row — the tile gets the positional fallback label `"Tile N"`, an
absent value, `greenAt` defaulting to 100, `redAt` defaulting to 0 and an
empty unit.  All row and column accesses are total list lookups with
defaults, so no out-of-bounds failure can occur. -/
theorem C8_missing_row (rows : List (List String)) (out : ℕ)
    (h9 : out < 9) (hlen : rows.length ≤ kpiIdx.getD out 0) :
    tileOf rows out =
      { label := "Tile " ++ toString (out + 1), value := none,
        greenAt := 100, redAt := 0, unit := "" } := by
  have hr : rows.getD (kpiIdx.getD out 0) [] = [] :=
    List.getD_eq_default _ _ hlen
  simp only [tileOf, hr]
  interval_cases out <;> decide

/-- Witness for C8: a two-cell fetch with only one row, read at tile slot 9
(row index 10, beyond the window). -/
theorem C8_witness :
    (8 : ℕ) < 9 ∧
    ([["Sales", "$5"]] : List (List String)).length ≤ kpiIdx.getD 8 0 ∧
    tileOf [["Sales", "$5"]] 8 =
      { label := "Tile 9", value := none, greenAt := 100, redAt := 0,
        unit := "" } := by
  refine ⟨by norm_num, by decide, ?_⟩
  have h := C8_missing_row [["Sales", "$5"]] 8 (by norm_num) (by decide)
  rw [h]
  decide

/-- Claim C9: one sync cycle is atomic with respect to the displayed data —
a failed fetch leaves every tile field, every feed string and the marquee
speed unchanged and only sets the status to `error` with the message, while
a successful fetch rebuilds all nine tiles and all five feeds purely from
the fetched rows (the result does not depend on the previous snapshot in any
field); there is no partially updated snapshot. -/
theorem C9_load_atomic :
    (∀ prev msg,
      (load prev (.error msg)).labels = prev.labels ∧
      (load prev (.error msg)).values = prev.values ∧
      (load prev (.error msg)).greens = prev.greens ∧
      (load prev (.error msg)).reds = prev.reds ∧
      (load prev (.error msg)).units = prev.units ∧
      (load prev (.error msg)).mqTexts = prev.mqTexts ∧
      (load prev (.error msg)).marqueeSec = prev.marqueeSec ∧
      (load prev (.error msg)).status = .error ∧
      (load prev (.error msg)).statusMsg = msg) ∧
    (∀ prev prev2 rows, load prev (.ok rows) = load prev2 (.ok rows)) ∧
    (∀ prev rows,
      (load prev (.ok rows)).status = .ok ∧
      (load prev (.ok rows)).labels.length = 9 ∧
      (load prev (.ok rows)).values.length = 9 ∧
      (load prev (.ok rows)).greens.length = 9 ∧
      (load prev (.ok rows)).reds.length = 9 ∧
      (load prev (.ok rows)).units.length = 9 ∧
      (load prev (.ok rows)).mqTexts = mqTextsOf rows ∧
      (load prev (.ok rows)).marqueeSec = marqueeSecOf rows) := by
  refine ⟨fun prev msg => ⟨rfl, rfl, rfl, rfl, rfl, rfl, rfl, rfl, rfl⟩,
    fun prev prev2 rows => rfl, fun prev rows => ?_⟩
  refine ⟨rfl, ?_, ?_, ?_, ?_, ?_, rfl, rfl⟩ <;>
    simp [load]

/-! ### Claims about the value parser -/

theorem mk_data (l : List Char) : (⟨l⟩ : String).data = l := rfl

theorem dropWhile_eq_self_of_all {p : Char → Bool} {l : List Char}
    (h : ∀ c ∈ l, p c = false) : l.dropWhile p = l := by
  cases l with
  | nil => rfl
  | cons a t => simp [List.dropWhile_cons, h a (List.mem_cons_self a t)]

/-- A string without whitespace characters is its own trim. -/
theorem jsTrim_eq_self {l : List Char} (h : ∀ c ∈ l, isWS c = false) :
    jsTrim ⟨l⟩ = ⟨l⟩ := by
  show (⟨((l.dropWhile isWS).reverse.dropWhile isWS).reverse⟩ : String) = ⟨l⟩
  rw [dropWhile_eq_self_of_all h,
    dropWhile_eq_self_of_all (fun c hc => h c (List.mem_reverse.mp hc)),
    List.reverse_reverse]

theorem isWS_eq_false_of_digdot {c : Char} (h : isDig c = true ∨ c = '.') :
    isWS c = false := by
  rcases h with h | rfl
  · simp only [isDig, Bool.and_eq_true, decide_eq_true_eq] at h
    simp only [isWS, Bool.or_eq_false_iff, decide_eq_false_iff_not]
    omega
  · decide

theorem isNL_eq_false_of_digdot {c : Char} (h : isDig c = true ∨ c = '.') :
    isNL c = false := by
  rcases h with h | rfl
  · simp only [isDig, Bool.and_eq_true, decide_eq_true_eq] at h
    simp only [isNL, Bool.or_eq_false_iff, decide_eq_false_iff_not]
    omega
  · decide

/-- Counterexample for Claim C1: the parenthesized input `"(-5)"` is not
forced negative — the embedded literal minus survives the character
stripping, so the parsed residue is `-5` and its negation is the positive
value `5`. -/
theorem C1_counterexample :
    asNumber (some "(-5)") = some 5 ∧ (0:ℚ) < 5 :=
  ⟨by decide, by norm_num⟩

/-- Claim C1 (amended): for every input string whose trimmed form is fully
wrapped in parentheses, `asNumber` strips all parentheses, cleans the
residue, and returns the negation of the parsed residue value — the parse
keeps any embedded literal minus, so a parenthesized negative numeral yields
a positive result rather than being forced negative — and a failed (`NaN`)
parse of the residue still yields absent. -/
theorem C1_paren_negates (str : String)
    (hp : parenWrapped (jsTrim str) = true) :
    (jsNumber (keepNumChars (stripParens (jsTrim str))) = none →
      asNumber (some str) = none) ∧
    (∀ n, keepNumChars (stripParens (jsTrim str)) ≠ "" →
      jsNumber (keepNumChars (stripParens (jsTrim str))) = some n →
      asNumber (some str) = some (-n)) := by
  have h0 : ¬(jsTrim str = "" ∨ jsTrim str = "—" ∨ jsTrim str = "--") := by
    rintro (h | h | h) <;> rw [h] at hp <;> exact absurd hp (by decide)
  constructor
  · intro hj
    simp only [asNumber]
    rw [if_neg h0, hp]
    simp only [if_true]
    by_cases hbad : (keepNumChars (stripParens (jsTrim str)) = "" ∨
        keepNumChars (stripParens (jsTrim str)) = "-" ∨
        keepNumChars (stripParens (jsTrim str)) = "." ∨
        keepNumChars (stripParens (jsTrim str)) = "-.")
    · rw [if_pos hbad]
    · rw [if_neg hbad, hj]
  · intro n hne hj
    have hm : jsNumber "-" = none := by decide
    have hd : jsNumber "." = none := by decide
    have hmd : jsNumber "-." = none := by decide
    have hbad : ¬(keepNumChars (stripParens (jsTrim str)) = "" ∨
        keepNumChars (stripParens (jsTrim str)) = "-" ∨
        keepNumChars (stripParens (jsTrim str)) = "." ∨
        keepNumChars (stripParens (jsTrim str)) = "-.") := by
      rintro (h | h | h | h)
      · exact hne h
      · rw [h, hm] at hj
        cases hj
      · rw [h, hd] at hj
        cases hj
      · rw [h, hmd] at hj
        cases hj
    simp only [asNumber]
    rw [if_neg h0, hp]
    simp only [if_true]
    rw [if_neg hbad, hj]

/-- Witness for C1: `"(2)"` parses to `some 2` under the residue parser and
`asNumber` returns its negation. -/
theorem C1_witness :
    parenWrapped (jsTrim "(2)") = true ∧
    keepNumChars (stripParens (jsTrim "(2)")) ≠ "" ∧
    jsNumber (keepNumChars (stripParens (jsTrim "(2)"))) = some 2 ∧
    asNumber (some "(2)") = some (-2) := by
  refine ⟨by decide, by decide, by decide, ?_⟩
  exact (C1_paren_negates "(2)" (by decide)).2 2 (by decide) (by decide)

/-- A digit character differs from every character whose code point lies
outside the digit range. -/
theorem isDig_ne {c : Char} (h : isDig c = true) (d : Char)
    (hd : d.toNat < 48 ∨ 57 < d.toNat) : c ≠ d := by
  intro he
  subst he
  simp only [isDig, Bool.and_eq_true, decide_eq_true_eq] at h
  omega

/-- Claim C7: for every clean numeric string `X` (characters drawn from the
digits and the decimal point), `asNumber` applied to the parenthesized
dollar form `($X)` equals the negation of `asNumber` applied to `$X` —
including the degenerate cases where the residue fails to parse, in which
both sides are absent. -/
theorem C7_paren_dollar (X : String)
    (h : ∀ c ∈ X.data, isDig c = true ∨ c = '.') :
    asNumber (some ("($" ++ X ++ ")")) =
      (asNumber (some ("$" ++ X))).map (fun q => -q) := by
  have hA : ("($" ++ X ++ ")") = (⟨'(' :: '$' :: (X.data ++ [')'])⟩ : String) := by
    apply String.ext
    have e1 : ("($").data = ['(', '$'] := rfl
    have e2 : (")").data = [')'] := rfl
    rw [String.data_append, String.data_append, e1, e2, mk_data]
    simp
  have hB : ("$" ++ X) = (⟨'$' :: X.data⟩ : String) := by
    apply String.ext
    have e1 : ("$").data = ['$'] := rfl
    rw [String.data_append, e1, mk_data]
    simp
  rw [hA, hB]
  have hAall : ∀ c ∈ ('(' :: '$' :: (X.data ++ [')'])), isWS c = false := by
    intro c hc
    simp at hc
    rcases hc with rfl | rfl | hc | rfl
    · decide
    · decide
    · exact isWS_eq_false_of_digdot (h c hc)
    · decide
  have hBall : ∀ c ∈ ('$' :: X.data), isWS c = false := by
    intro c hc
    simp only [List.mem_cons] at hc
    rcases hc with rfl | hc
    · decide
    · exact isWS_eq_false_of_digdot (h c hc)
  have htrimA := jsTrim_eq_self hAall
  have htrimB := jsTrim_eq_self hBall
  have hmA : ((('(' :: '$' :: (X.data ++ [')'])).dropWhile
      isWS).reverse.dropWhile isWS).reverse = '(' :: '$' :: (X.data ++ [')']) := by
    rw [dropWhile_eq_self_of_all hAall,
      dropWhile_eq_self_of_all (fun c hc => hAall c (List.mem_reverse.mp hc)),
      List.reverse_reverse]
  have hmB : ((('$' :: X.data).dropWhile isWS).reverse.dropWhile isWS).reverse
      = '$' :: X.data := by
    rw [dropWhile_eq_self_of_all hBall,
      dropWhile_eq_self_of_all (fun c hc => hBall c (List.mem_reverse.mp hc)),
      List.reverse_reverse]
  have hconcatA : '(' :: '$' :: (X.data ++ [')'])
      = ('(' :: '$' :: X.data) ++ [')'] := by
    simp
  have hpA : parenWrapped ⟨'(' :: '$' :: (X.data ++ [')'])⟩ = true := by
    simp only [parenWrapped, mk_data]
    rw [hmA]
    have hcond : 2 ≤ ('(' :: '$' :: (X.data ++ [')'])).length ∧
        ('(' :: '$' :: (X.data ++ [')'])).head? = some '(' ∧
        ('(' :: '$' :: (X.data ++ [')'])).getLast? = some ')' := by
      refine ⟨?_, rfl, ?_⟩
      · simp only [List.length_cons, List.length_append]
        omega
      · rw [hconcatA]
        exact List.getLast?_concat _
    rw [if_pos hcond]
    have hdrop : ('(' :: '$' :: (X.data ++ [')'])).drop 1
        = '$' :: (X.data ++ [')']) := rfl
    have hconcatB : '$' :: (X.data ++ [')']) = ('$' :: X.data) ++ [')'] := by
      simp
    rw [hdrop, hconcatB, List.dropLast_concat, List.all_eq_true]
    intro c hc
    simp only [List.mem_cons] at hc
    rcases hc with rfl | hc
    · decide
    · simp [isNL_eq_false_of_digdot (h c hc)]
  have hpB : parenWrapped ⟨'$' :: X.data⟩ = false := by
    simp only [parenWrapped, mk_data]
    rw [hmB]
    have hnc : ¬(2 ≤ ('$' :: X.data).length ∧
        ('$' :: X.data).head? = some '(' ∧
        ('$' :: X.data).getLast? = some ')') := by
      rintro ⟨-, h2, -⟩
      rw [List.head?_cons] at h2
      injection h2 with h3
      exact absurd h3 (by decide)
    rw [if_neg hnc]
  have hfX : X.data.filter (fun c => !(c == '(' || c == ')')) = X.data := by
    apply List.filter_eq_self.mpr
    intro c hc
    rcases h c hc with hd | rfl
    · have h1 : c ≠ '(' := isDig_ne hd _ (by decide)
      have h2 : c ≠ ')' := isDig_ne hd _ (by decide)
      simp [h1, h2]
    · decide
  have hstrip : stripParens ⟨'(' :: '$' :: (X.data ++ [')'])⟩
      = (⟨'$' :: X.data⟩ : String) := by
    simp only [stripParens, mk_data]
    refine congrArg String.mk ?_
    rw [List.filter_cons, List.filter_cons, List.filter_append, hfX]
    rw [if_neg (by decide), if_pos (by decide)]
    simp
  have hkeepX : X.data.filter (fun c => isDig c || c == '.' || c == '-')
      = X.data := by
    apply List.filter_eq_self.mpr
    intro c hc
    rcases h c hc with hd | rfl
    · simp [hd]
    · decide
  have hkeep : keepNumChars ⟨'$' :: X.data⟩ = X := by
    simp only [keepNumChars, mk_data]
    rw [List.filter_cons, if_neg (by decide), hkeepX]
  simp only [asNumber]
  rw [htrimA, htrimB]
  have hneA : ¬((⟨'(' :: '$' :: (X.data ++ [')'])⟩ : String) = "" ∨
      (⟨'(' :: '$' :: (X.data ++ [')'])⟩ : String) = "—" ∨
      (⟨'(' :: '$' :: (X.data ++ [')'])⟩ : String) = "--") := by
    rintro (hh | hh | hh)
    · have hd := congrArg String.data hh
      rw [mk_data] at hd
      exact absurd hd (by simp)
    · have hd := congrArg String.data hh
      rw [mk_data, show ("—").data = ['—'] from rfl] at hd
      injection hd with h1 _
      exact absurd h1 (by decide)
    · have hd := congrArg String.data hh
      rw [mk_data, show ("--").data = ['-', '-'] from rfl] at hd
      injection hd with h1 _
      exact absurd h1 (by decide)
  have hneB : ¬((⟨'$' :: X.data⟩ : String) = "" ∨
      (⟨'$' :: X.data⟩ : String) = "—" ∨
      (⟨'$' :: X.data⟩ : String) = "--") := by
    rintro (hh | hh | hh)
    · have hd := congrArg String.data hh
      rw [mk_data] at hd
      exact absurd hd (by simp)
    · have hd := congrArg String.data hh
      rw [mk_data, show ("—").data = ['—'] from rfl] at hd
      injection hd with h1 _
      exact absurd h1 (by decide)
    · have hd := congrArg String.data hh
      rw [mk_data, show ("--").data = ['-', '-'] from rfl] at hd
      injection hd with h1 _
      exact absurd h1 (by decide)
  rw [if_neg hneA, if_neg hneB, hpA, hpB]
  simp only [if_true, Bool.false_eq_true, if_false]
  rw [hstrip, hkeep]
  by_cases hbad : (X = "" ∨ X = "-" ∨ X = "." ∨ X = "-.")
  · rw [if_pos hbad, if_pos hbad]
    rfl
  · rw [if_neg hbad, if_neg hbad]
    cases hjs : jsNumber X with
    | none => rfl
    | some n => rfl

/-- Witness for C7 at the clean numeric string `X = "25"`. -/
theorem C7_witness :
    (∀ c ∈ ("25").data, isDig c = true ∨ c = '.') ∧
    asNumber (some "($25)") = (asNumber (some "$25")).map (fun q => -q) ∧
    asNumber (some "($25)") = some (-25) :=
  ⟨by decide, C7_paren_dollar "25" (by decide), by decide⟩
